import Mathlib

/-!
Verification of the covered-call backtesting engine (`Covered_Calls`): a
shallow embedding of the strike ladder, strike selection, expiry settlement,
early-exit/adjustment policy, entry filters, pivot points and IV-percentile
computation, with theorems about their behaviour.  Prices and premiums are
modelled over `ℚ`, dates as integer day numbers.
-/

namespace CoveredCalls

/-- Python's built-in `round`: nearest integer, ties to the even integer. -/
def pyRound (q : ℚ) : ℤ :=
  if q - ⌊q⌋ < 1/2 then ⌊q⌋
  else if 1/2 < q - ⌊q⌋ then ⌊q⌋ + 1
  else if ⌊q⌋ % 2 = 0 then ⌊q⌋ else ⌊q⌋ + 1

/-- Python's `int()` cast: truncation toward zero. -/
def pyInt (q : ℚ) : ℤ := if 0 ≤ q then ⌊q⌋ else ⌈q⌉

/-- First-wins minimal-key scan.  The running best is replaced only when a
later key is strictly smaller (`diff < min_diff` in
`GreeksCalculator.find_strike_by_delta`, and also the semantics of Python's
`min(xs, key=...)`); the running minimal key is always the key of `best`, so
only `best` is carried. -/
def argminGo (key : ℚ → ℚ) : List ℚ → ℚ → ℚ
  | [], best => best
  | x :: xs, best => if key x < key best then argminGo key xs x else argminGo key xs best

/-- The element of the list with minimal key, first occurrence winning ties;
`none` for the empty list. -/
def argminFirst (key : ℚ → ℚ) : List ℚ → Option ℚ
  | [] => none
  | x :: xs => some (argminGo key xs x)

/-- Python `max(xs)` over a list of numbers (raises on empty, modelled `none`). -/
def listMax : List ℚ → Option ℚ
  | [] => none
  | x :: xs =>
    match listMax xs with
    | none => some x
    | some m => some (max x m)

/-- Python `min(xs)` over a list of numbers (raises on empty, modelled `none`). -/
def listMin : List ℚ → Option ℚ
  | [] => none
  | x :: xs =>
    match listMin xs with
    | none => some x
    | some m => some (min x m)

/-- `GreeksCalculator.find_strike_by_delta`: linear scan over the candidate
strikes keeping the strike whose delta is closest to the target, comparing
absolute deltas for puts (`option_type_pe = true`).  `delta_of` is
`calculate_delta` at the fixed spot, time to expiry and volatility, as a
function of the strike.  Returns `(best_strike, best_delta)`, `(none, none)`
when no strike is available.  `delta_diff` is the per-strike difference the
scan minimizes. -/
def delta_diff (delta_of : ℚ → ℚ) (target_delta : ℚ) (option_type_pe : Bool)
    (s : ℚ) : ℚ :=
  if option_type_pe then abs (abs (delta_of s) - abs target_delta)
  else abs (delta_of s - target_delta)

def find_strike_by_delta (delta_of : ℚ → ℚ) (target_delta : ℚ)
    (available_strikes : List ℚ) (option_type_pe : Bool) :
    Option ℚ × Option ℚ :=
  match argminFirst (delta_diff delta_of target_delta option_type_pe)
      available_strikes with
  | none => (none, none)
  | some s => (some s, some (delta_of s))

/-- `IVPercentileService.calculate_iv_percentile`: the fraction of trailing
IV estimates strictly below the current one, times 100; 50 for no history. -/
def calculate_iv_percentile (current_iv : ℚ) (historical_ivs : List ℚ) : ℚ :=
  if historical_ivs = [] then 50
  else ((historical_ivs.countP fun iv => decide (iv < current_iv) : ℕ) : ℚ) /
    (historical_ivs.length : ℚ) * 100

/-- `CoveredCallEngine._get_strike_interval`: price-tier-dependent spacing. -/
def get_strike_interval (stock_price : ℚ) : ℚ :=
  if stock_price < 100 then 5/2
  else if stock_price < 500 then 5
  else if stock_price < 1000 then 10
  else if stock_price < 2500 then 25
  else if stock_price < 5000 then 50
  else 100

/-- `CoveredCallEngine._generate_strikes`: strikes from the rounded 90% level
to the rounded 120% level of spot, in steps of `interval`.  The source loop
appends `start + k*interval` for `k = 0, 1, ...` while the value stays at or
below `stop`; with exact arithmetic that is `⌊(stop - start)/interval⌋ + 1`
values when `start ≤ stop` and none otherwise. -/
def generate_strikes (stock_price interval : ℚ) : List ℚ :=
  let start := (pyRound (stock_price * (9/10) / interval) : ℚ) * interval
  let stop := (pyRound (stock_price * (12/10) / interval) : ℚ) * interval
  if start ≤ stop then
    (List.range ((⌊(stop - start) / interval⌋).toNat + 1)).map
      fun (k : ℕ) => start + (k : ℚ) * interval
  else []

/-- One OHLC bar of a symbol's price table (volume and open play no role in
the embedded computations). -/
structure Bar where
  high : ℚ
  low : ℚ
  close : ℚ
deriving DecidableEq, Repr

/-- The dict returned by `CoveredCallEngine._calculate_pivot_points`. -/
structure Pivots where
  pivot : ℚ
  r1 : ℚ
  r2 : ℚ
  r3 : ℚ
  s1 : ℚ
  s2 : ℚ
  s3 : ℚ
deriving DecidableEq, Repr

/-- The standard pivot-point formulas applied to one bar (the arithmetic body
of `_calculate_pivot_points`). -/
def pivots_from_bar (b : Bar) : Pivots :=
  let p := (b.high + b.low + b.close) / 3
  { pivot := p
    r1 := 2 * p - b.low
    r2 := p + (b.high - b.low)
    r3 := b.high + 2 * (p - b.low)
    s1 := 2 * p - b.high
    s2 := p - (b.high - b.low)
    s3 := b.low - 2 * (b.high - p) }

/-- `CoveredCallEngine._calculate_pivot_points` applied to the rows of the
symbol's table with index on or before the current date, in chronological
order (`hist`).  `tail(2)` keeps the last two rows; with at least two rows
`iloc[-2]` (the second-to-last row) is the bar used, with exactly one row
`iloc[-1]` (that single row) is used, and with no rows the empty dict (here
`none`) is returned. -/
def calculate_pivot_points (hist : List Bar) : Option Pivots :=
  match hist.drop (hist.length - 2) with
  | [] => none
  | [b] => some (pivots_from_bar b)
  | a :: _ :: _ => some (pivots_from_bar a)

/-- `CoveredCallEngine._select_strike`.  The indicator-dependent inputs are
passed explicitly: `atr` (the ATR value used by ATR_BASED), `iv_target_delta`
(`iv_metrics.target_delta` when IV metrics are present, else `none`),
`delta_of` (`calculate_delta` at the day's spot, time to expiry and
volatility, as a function of the strike), `pivots` (the
`_calculate_pivot_points` result, `none` for the empty dict), and
`boll_upper` (the current upper Bollinger band, `none` when the symbol has no
data, the history is shorter than `bollinger_period + 5`, or the band value
is NaN).  The strike method is matched on its enum string value; the final
branch is the unknown-method default of 2% OTM.
`ladder` is the `strikes` local both of `_select_strike` and of
`_adjust_position`: the ladder generated for the day's spot at its tier
interval. -/
def ladder (stock_price : ℚ) : List ℚ :=
  generate_strikes stock_price (get_strike_interval stock_price)

def select_strike (method : String) (stock_price : ℚ) (atr atr_multiplier : ℚ)
    (iv_target_delta : Option ℚ) (delta_of : ℚ → ℚ)
    (pivots : Option Pivots) (boll_upper : Option ℚ) : Option ℚ :=
  if method = "ATR_BASED" then
    argminFirst (fun x => abs (x - (stock_price + atr * atr_multiplier)))
      (ladder stock_price)
  else if method = "ADAPTIVE_DELTA" then
    (find_strike_by_delta delta_of (iv_target_delta.getD (3/10))
      (ladder stock_price) false).1
  else if method = "DELTA_30" then
    (find_strike_by_delta delta_of (3/10) (ladder stock_price) false).1
  else if method = "DELTA_40" then
    (find_strike_by_delta delta_of (4/10) (ladder stock_price) false).1
  else if method = "OTM_2PCT" then
    argminFirst (fun x => abs (x - stock_price * (102/100))) (ladder stock_price)
  else if method = "OTM_5PCT" then
    argminFirst (fun x => abs (x - stock_price * (105/100))) (ladder stock_price)
  else if method = "ATM" then
    argminFirst (fun x => abs (x - stock_price)) (ladder stock_price)
  else if method = "PIVOT_R1" then
    match pivots with
    | some pv =>
      argminFirst (fun x => abs (x -
        (if pv.r1 ≤ stock_price then stock_price * (102/100) else pv.r1)))
        (ladder stock_price)
    | none =>
      argminFirst (fun x => abs (x - stock_price * (102/100))) (ladder stock_price)
  else if method = "PIVOT_R2" then
    match pivots with
    | some pv =>
      argminFirst (fun x => abs (x -
        (if pv.r2 ≤ stock_price then stock_price * (105/100) else pv.r2)))
        (ladder stock_price)
    | none =>
      argminFirst (fun x => abs (x - stock_price * (105/100))) (ladder stock_price)
  else if method = "BOLLINGER_UPPER" then
    match boll_upper with
    | some u =>
      if stock_price < u then
        argminFirst (fun x => abs (x - u)) (ladder stock_price)
      else
        argminFirst (fun x => abs (x - stock_price * (102/100))) (ladder stock_price)
    | none =>
      argminFirst (fun x => abs (x - stock_price * (102/100))) (ladder stock_price)
  else
    argminFirst (fun x => abs (x - stock_price * (102/100))) (ladder stock_price)

/-- An open covered-call position (`Position` dataclass). -/
structure Position where
  symbol : String
  lot_size : ℤ
  entry_date : ℤ
  stock_entry_price : ℚ
  strike_price : ℚ
  premium_received : ℚ
  expiry_date : ℤ
  delta_at_entry : ℚ := 0
  theta_at_entry : ℚ := 0
  iv_at_entry : ℚ := 0
  adjusted : Bool := false
  original_premium : ℚ := 0
  adjustment_date : Option ℤ := none
  adjustment_cost : ℚ := 0
  profit_high_water_mark : ℚ := 0
  trailing_stop_active : Bool := false
deriving DecidableEq, Repr

/-- The exit reasons the engine attaches to closed trades, with the numeric
payloads that the source interpolates into the reason string. -/
inductive ExitReason where
  | assigned
  | expiry
  | dte_exit (dte : ℤ)
  | trailing_stop (hwm : ℤ)
  | profit_target (pct : ℤ)
  | stop_loss (multiple : ℚ) (after_adj : Bool)
  | end_of_backtest
deriving DecidableEq, Repr

/-- The exit-reason strings the engine builds (`"ASSIGNED"`,
`f"DTE_EXIT_{dte}D"`, `f"STOP_LOSS_{mult}X"` plus `"_AFTER_ADJ"` once
adjusted, ...). -/
def reason_string : ExitReason → String
  | .assigned => "ASSIGNED"
  | .expiry => "EXPIRY"
  | .dte_exit d => "DTE_EXIT_" ++ toString d ++ "D"
  | .trailing_stop h => "TRAILING_STOP_" ++ toString h ++ "PCT_HWM"
  | .profit_target p => "PROFIT_TARGET_" ++ toString p ++ "PCT"
  | .stop_loss m adj =>
    "STOP_LOSS_" ++ toString m ++ "X" ++ (if adj then "_AFTER_ADJ" else "")
  | .end_of_backtest => "END_OF_BACKTEST"

/-- `CoveredCallEngine._handle_expiry`: settlement once the expiry date has
been reached.  Returns the exit reason, the stock exit price and the option
exit price that are passed on to `_close_position`. -/
def handle_expiry (position : Position) (stock_price : ℚ) :
    ExitReason × ℚ × ℚ :=
  if position.strike_price ≤ stock_price then
    (.assigned, position.strike_price, 0)
  else
    (.expiry, stock_price, 0)

/-- The expiry trigger in `_check_expiries`: `current_date >= expiry_date`. -/
def expiry_due (position : Position) (current_date : ℤ) : Bool :=
  decide (position.expiry_date ≤ current_date)

/-- The cash movement in `_close_position`: assignment credits
`strike × lot_size`; any other close credits the stock exit value and debits
the option buyback. -/
def close_cash_delta (position : Position) (exit_reason : ExitReason)
    (stock_exit_price option_exit_price : ℚ) : ℚ :=
  if reason_string exit_reason = "ASSIGNED" then
    position.strike_price * (position.lot_size : ℚ)
  else
    stock_exit_price * (position.lot_size : ℚ) -
      option_exit_price * (position.lot_size : ℚ)

/-- The slice of `BacktestConfig` the embedded computations read.  The exit
strategy is carried as its enum string value. -/
structure BacktestConfig where
  exit_strategy : String
  profit_target_pct : ℚ := 50
  stop_loss_multiple : ℚ := 2
  allow_sl_adjustment : Bool := false
  use_rsi_filter : Bool := false
  rsi_period : ℕ := 14
  rsi_min : ℚ := 40
  rsi_max : ℚ := 70
  use_stochastic_filter : Bool := false
  stochastic_k_period : ℕ := 14
  stochastic_d_period : ℕ := 3
  stochastic_smoothing : ℕ := 3
  stochastic_overbought : ℚ := 70
  use_dte_exit : Bool := false
  dte_exit_threshold : ℤ := 7
  use_trailing_stop : Bool := false
  trailing_stop_activation : ℚ := 25
  trailing_stop_distance : ℚ := 15
deriving DecidableEq, Repr

/-- `strategy in [PROFIT_TARGET, PROFIT_TARGET_AND_STOP_LOSS]`. -/
def check_profit_target (cfg : BacktestConfig) : Bool :=
  cfg.exit_strategy == "PROFIT_TARGET" ||
    cfg.exit_strategy == "PROFIT_TARGET_AND_STOP_LOSS"

/-- `strategy in [STOP_LOSS, PROFIT_TARGET_AND_STOP_LOSS]`. -/
def check_stop_loss (cfg : BacktestConfig) : Bool :=
  cfg.exit_strategy == "STOP_LOSS" ||
    cfg.exit_strategy == "PROFIT_TARGET_AND_STOP_LOSS"

/-- What `_check_early_exits` decides for one position on one day. -/
inductive ExitDecision where
  | no_action
  | close (reason : ExitReason)
  | adjust (premium_lost : ℚ)
deriving DecidableEq, Repr

/-- Decision of the early-exit evaluation together with the trailing-stop
state the evaluation wrote back into the position. -/
structure EarlyExitResult where
  decision : ExitDecision
  profit_high_water_mark : ℚ
  trailing_stop_active : Bool
deriving DecidableEq, Repr

/-- The per-position body of `CoveredCallEngine._check_early_exits` for one
open position on one day.  `dte` is `(expiry_date - current_date).days` and
`current_option_price` the Black-Scholes value of the written call at the
day's spot; positions with `dte ≤ 0` are skipped by the source loop.  First,
if the DTE exit is enabled and triggers, the position closes immediately;
otherwise the trailing-stop high-water mark and activation flag are updated
and the trailing stop, the profit target and the stop loss are checked in
that order; a stop-loss hit becomes an adjustment when allowed and not yet
done, and otherwise a close whose reason carries the adjusted flag. -/
def check_early_exit (cfg : BacktestConfig) (position : Position)
    (dte : ℤ) (current_option_price : ℚ) : EarlyExitResult :=
  if dte ≤ 0 then
    ⟨.no_action, position.profit_high_water_mark, position.trailing_stop_active⟩
  else
    let option_pnl := position.premium_received - current_option_price
    let max_profit := position.premium_received
    let profit_pct := if 0 < max_profit then option_pnl / max_profit * 100 else 0
    if cfg.use_dte_exit && decide (dte ≤ cfg.dte_exit_threshold) then
      ⟨.close (.dte_exit dte), position.profit_high_water_mark,
        position.trailing_stop_active⟩
    else
      let hwm :=
        if cfg.use_trailing_stop && decide (position.profit_high_water_mark < profit_pct)
        then profit_pct else position.profit_high_water_mark
      let active :=
        if cfg.use_trailing_stop && !position.trailing_stop_active &&
            decide (cfg.trailing_stop_activation ≤ profit_pct)
        then true else position.trailing_stop_active
      if cfg.use_trailing_stop && active &&
          decide (cfg.trailing_stop_distance ≤ hwm - profit_pct) then
        ⟨.close (.trailing_stop (pyInt hwm)), hwm, active⟩
      else if check_profit_target cfg &&
          decide (max_profit * (cfg.profit_target_pct / 100) ≤ option_pnl) then
        ⟨.close (.profit_target (pyInt cfg.profit_target_pct)), hwm, active⟩
      else if check_stop_loss cfg &&
          decide (option_pnl ≤ -(cfg.stop_loss_multiple * position.premium_received)) then
        if cfg.allow_sl_adjustment && !position.adjusted then
          ⟨.adjust (abs option_pnl), hwm, active⟩
        else
          ⟨.close (.stop_loss cfg.stop_loss_multiple position.adjusted), hwm, active⟩
      else
        ⟨.no_action, hwm, active⟩

/-- The new strike chosen by `_adjust_position`: the smallest ladder strike at
or above `strike + (premium_lost/spot) * spot`, clamped to the ladder maximum
when no ladder strike is that high.  `none` only for an empty ladder (where
Python's `max([])` would raise). -/
def adjust_new_strike (stock_price strike_price premium_lost : ℚ) : Option ℚ :=
  if (ladder stock_price).filter
      (fun s => decide (strike_price + premium_lost / stock_price * stock_price ≤ s)) = []
  then listMax (ladder stock_price)
  else listMin ((ladder stock_price).filter
    (fun s => decide (strike_price + premium_lost / stock_price * stock_price ≤ s)))

/-- `CoveredCallEngine._adjust_position`.  `price_of` and `delta_of` are
`calculate_option_price` and `calculate_delta` at the day's spot, the
position's remaining time to expiry and its entry IV, as functions of the
strike.  Returns the updated position and the cash movement (buy back the old
option, sell the new one), `none` only for an empty ladder. -/
def adjust_position (position : Position) (current_date : ℤ)
    (stock_price buyback_price premium_lost : ℚ)
    (price_of delta_of : ℚ → ℚ) : Option (Position × ℚ) :=
  match adjust_new_strike stock_price position.strike_price premium_lost with
  | none => none
  | some new_strike =>
    let original_premium :=
      if position.original_premium = 0 then position.premium_received
      else position.original_premium
    let new_premium := price_of new_strike
    let cash_delta := -(buyback_price * (position.lot_size : ℚ)) +
      new_premium * (position.lot_size : ℚ)
    some ({ position with
        original_premium := original_premium
        adjustment_date := some current_date
        adjustment_cost := buyback_price
        strike_price := new_strike
        premium_received := new_premium
        delta_at_entry := delta_of new_strike
        adjusted := true }, cash_delta)

/-- `CoveredCallEngine._check_rsi_filter`.  `hist_len` is the number of rows
on or before the evaluation date (0 when the symbol has no data, which the
source also answers with `True`) and `current_rsi` the last RSI value,
`none` for NaN.  Short history or an indeterminate RSI allows the entry. -/
def check_rsi_filter (cfg : BacktestConfig) (hist_len : ℕ)
    (current_rsi : Option ℚ) : Bool :=
  if hist_len < cfg.rsi_period + 10 then true
  else
    match current_rsi with
    | none => true
    | some r => decide (cfg.rsi_min ≤ r) && decide (r ≤ cfg.rsi_max)

/-- `CoveredCallEngine._check_stochastic_filter`.  The slow %K/%D values at
the evaluation date and the day before are passed in, `none` standing both
for NaN and for a series too short to have two values.  Short history or any
indeterminate value allows the entry; otherwise the filter passes only on a
bearish crossover out of the overbought zone. -/
def check_stochastic_filter (cfg : BacktestConfig) (hist_len : ℕ)
    (current_k previous_k current_d previous_d : Option ℚ) : Bool :=
  let min_required := cfg.stochastic_k_period + cfg.stochastic_smoothing +
    cfg.stochastic_d_period + 5
  if hist_len < min_required then true
  else
    match current_k, previous_k, current_d, previous_d with
    | some ck, some pk, some cd, some pdv =>
      let overbought := cfg.stochastic_overbought
      let was_overbought := decide (overbought < pk) || decide (overbought - 10 < ck)
      let bearish_crossover := decide (pdv ≤ pk) && decide (ck < cd)
      was_overbought && bearish_crossover
    | _, _, _, _ => true

/-- The day-dependent inputs one open position sees in the simulation loop:
the current date, the days to expiry, the day's stock price, the option's
Black-Scholes value, and the pricing/delta functions used should an
adjustment reprice a new strike. -/
structure DayInput where
  current_date : ℤ
  dte : ℤ
  stock_price : ℚ
  current_option_price : ℚ
  price_of : ℚ → ℚ
  delta_of : ℚ → ℚ

/-- Outcome of one simulated day for a single position. -/
inductive StepResult where
  | still_open (position : Position)
  | closed (reason : ExitReason)

/-- One simulated day for a single open position, as `_process_day` drives
it: expiry settlement when the expiry date has been reached (`dte ≤ 0`),
otherwise the early-exit evaluation, applying the decided close or roll-up
adjustment.  The returned flag records whether an adjustment happened this
day; `none` models the exception an empty strike ladder would raise. -/
def step_day (cfg : BacktestConfig) (position : Position) (d : DayInput) :
    Option (StepResult × Bool) :=
  if d.dte ≤ 0 then
    some (.closed (handle_expiry position d.stock_price).1, false)
  else
    let r := check_early_exit cfg position d.dte d.current_option_price
    let position' := { position with
      profit_high_water_mark := r.profit_high_water_mark
      trailing_stop_active := r.trailing_stop_active }
    match r.decision with
    | .no_action => some (.still_open position', false)
    | .close reason => some (.closed reason, false)
    | .adjust premium_lost =>
      match adjust_position position' d.current_date d.stock_price
          d.current_option_price premium_lost d.price_of d.delta_of with
      | none => none
      | some (p', _) => some (.still_open p', true)

/-- The number of roll-up adjustments a position undergoes across a run:
days are processed in order until the position closes (or the run aborts),
counting the days on which `step_day` adjusted. -/
def run_days (cfg : BacktestConfig) : Position → List DayInput → ℕ
  | _, [] => 0
  | position, d :: ds =>
    match step_day cfg position d with
    | none => 0
    | some (.closed _, _) => 0
    | some (.still_open p', adjusted_now) =>
      (if adjusted_now then 1 else 0) + run_days cfg p' ds

/-! ### Spec-side definitions

Named forms of the quantities and conditions the specification talks about,
for stating refinement theorems against the embedded code. -/

/-- Option P&L of an open short call: `premium_received - current_value`. -/
def option_pnl_of (position : Position) (current_option_price : ℚ) : ℚ :=
  position.premium_received - current_option_price

/-- Profit as a percentage of the maximal profit (the premium); 0 when the
premium is not positive. -/
def profit_pct_of (position : Position) (current_option_price : ℚ) : ℚ :=
  if 0 < position.premium_received then
    option_pnl_of position current_option_price / position.premium_received * 100
  else 0

/-- The day's trailing-stop high-water mark after the update step. -/
def updated_hwm (cfg : BacktestConfig) (position : Position)
    (current_option_price : ℚ) : ℚ :=
  if cfg.use_trailing_stop &&
      decide (position.profit_high_water_mark <
        profit_pct_of position current_option_price)
  then profit_pct_of position current_option_price
  else position.profit_high_water_mark

/-- The day's trailing-stop activation flag after the update step. -/
def updated_active (cfg : BacktestConfig) (position : Position)
    (current_option_price : ℚ) : Bool :=
  if cfg.use_trailing_stop && !position.trailing_stop_active &&
      decide (cfg.trailing_stop_activation ≤
        profit_pct_of position current_option_price)
  then true else position.trailing_stop_active

/-- Exit condition 1: DTE exit enabled and days-to-expiry at or below the
threshold. -/
def dte_exit_cond (cfg : BacktestConfig) (dte : ℤ) : Bool :=
  cfg.use_dte_exit && decide (dte ≤ cfg.dte_exit_threshold)

/-- Exit condition 2: trailing stop enabled and active, with the retracement
from the high-water mark at or beyond the configured distance. -/
def trailing_stop_cond (cfg : BacktestConfig) (position : Position)
    (current_option_price : ℚ) : Bool :=
  cfg.use_trailing_stop && updated_active cfg position current_option_price &&
    decide (cfg.trailing_stop_distance ≤
      updated_hwm cfg position current_option_price -
        profit_pct_of position current_option_price)

/-- Exit condition 3: the exit strategy includes the profit target and the
option P&L has reached the target fraction of the premium. -/
def profit_target_cond (cfg : BacktestConfig) (position : Position)
    (current_option_price : ℚ) : Bool :=
  check_profit_target cfg &&
    decide (position.premium_received * (cfg.profit_target_pct / 100) ≤
      option_pnl_of position current_option_price)

/-- Exit condition 4: the exit strategy includes the stop loss and the option
P&L is at or below minus the multiple of the premium received. -/
def stop_loss_cond (cfg : BacktestConfig) (position : Position)
    (current_option_price : ℚ) : Bool :=
  check_stop_loss cfg &&
    decide (option_pnl_of position current_option_price ≤
      -(cfg.stop_loss_multiple * position.premium_received))

/-- What a stop-loss hit resolves to: a one-time adjustment when allowed and
not yet done, otherwise a close whose reason records the adjusted flag. -/
def stop_loss_outcome (cfg : BacktestConfig) (position : Position)
    (current_option_price : ℚ) : ExitDecision :=
  if cfg.allow_sl_adjustment && !position.adjusted then
    .adjust (abs (option_pnl_of position current_option_price))
  else .close (.stop_loss cfg.stop_loss_multiple position.adjusted)

/-- The spec's wording of the IV percentile: the fraction of trailing
estimates strictly below the current one, times 100 (estimates equal to the
current one do not count). -/
def iv_percentile_spec (current_iv : ℚ) (historical_ivs : List ℚ) : ℚ :=
  (((historical_ivs.filter fun iv => decide (iv < current_iv)).length : ℕ) : ℚ) /
    (historical_ivs.length : ℚ) * 100

/-! ### Theorems -/

/-- C1: when an open position's expiry date has been reached, settlement uses
an inclusive boundary: stock price at or above the strike closes with reason
ASSIGNED, option exit price 0 and cash credited `strike × lot_size`;
otherwise the position closes with reason EXPIRY, option exit price 0 and
cash credited `stock_price × lot_size` minus the option exit value.  In
particular a stock price exactly at the strike is ASSIGNED. -/
theorem expiry_settlement_boundary (position : Position) (stock_price : ℚ) :
    (position.strike_price ≤ stock_price →
      handle_expiry position stock_price =
        (.assigned, position.strike_price, 0) ∧
      close_cash_delta position .assigned position.strike_price 0 =
        position.strike_price * (position.lot_size : ℚ)) ∧
    (stock_price < position.strike_price →
      handle_expiry position stock_price = (.expiry, stock_price, 0) ∧
      close_cash_delta position .expiry stock_price 0 =
        stock_price * (position.lot_size : ℚ) - 0 * (position.lot_size : ℚ)) ∧
    (handle_expiry position position.strike_price).1 = .assigned := by
  refine ⟨fun h => ⟨?_, ?_⟩, fun h => ⟨?_, ?_⟩, ?_⟩
  · rw [handle_expiry, if_pos h]
  · rw [close_cash_delta,
      if_pos (show reason_string .assigned = "ASSIGNED" from rfl)]
  · rw [handle_expiry, if_neg (not_le.mpr h)]
  · rw [close_cash_delta, if_neg (by decide)]
  · rw [handle_expiry, if_pos le_rfl]

/-- C9: the IV percentile is the fraction of trailing estimates strictly
below the current one times 100 (an estimate equal to the current one does
not count, as the single-equal-value case shows), and an empty trailing list
yields 50. -/
theorem iv_percentile_strictly_below (current_iv : ℚ) (historical_ivs : List ℚ) :
    calculate_iv_percentile current_iv [] = 50 ∧
    calculate_iv_percentile current_iv [current_iv] = 0 ∧
    (historical_ivs ≠ [] →
      calculate_iv_percentile current_iv historical_ivs =
        iv_percentile_spec current_iv historical_ivs) := by
  refine ⟨rfl, ?_, fun hne => ?_⟩
  · simp [calculate_iv_percentile, List.countP_cons, lt_irrefl]
  · rw [calculate_iv_percentile, if_neg hne, iv_percentile_spec,
      List.countP_eq_length_filter]

/-- C10: on an empty candidate-strike list, `find_strike_by_delta` returns
`(None, None)` instead of raising, so a caller must handle the `None` case
before using the result as a strike. -/
theorem find_strike_by_delta_empty (delta_of : ℚ → ℚ) (target_delta : ℚ)
    (option_type_pe : Bool) :
    find_strike_by_delta delta_of target_delta [] option_type_pe =
      (none, none) := rfl

/-- C5: the RSI and Stochastic entry filters degrade permissively: history
shorter than the filter's minimum required length, or an indeterminate (NaN)
indicator value at the evaluation date, makes the filter pass, so
insufficient data never blocks an entry. -/
theorem filters_permissive_on_missing_data (cfg : BacktestConfig)
    (hist_len : ℕ) (v ck pk cd pdv : Option ℚ) :
    (hist_len < cfg.rsi_period + 10 →
      check_rsi_filter cfg hist_len v = true) ∧
    check_rsi_filter cfg hist_len none = true ∧
    (hist_len < cfg.stochastic_k_period + cfg.stochastic_smoothing +
        cfg.stochastic_d_period + 5 →
      check_stochastic_filter cfg hist_len ck pk cd pdv = true) ∧
    ((ck = none ∨ pk = none ∨ cd = none ∨ pdv = none) →
      check_stochastic_filter cfg hist_len ck pk cd pdv = true) := by
  refine ⟨fun h => ?_, ?_, fun h => ?_, fun h => ?_⟩
  · simp only [check_rsi_filter]; rw [if_pos h]
  · simp only [check_rsi_filter]; split_ifs <;> rfl
  · simp only [check_stochastic_filter]; rw [if_pos h]
  · rcases ck with _ | ck <;> rcases pk with _ | pk <;>
      rcases cd with _ | cd <;> rcases pdv with _ | pdv <;>
      first
        | (simp only [check_stochastic_filter]; split_ifs <;> rfl)
        | simp at h

/-- C8: a roll-up adjustment changes only the strike, the premium, the entry
delta and the adjustment bookkeeping fields (plus cash); the symbol, lot
size, entry date, stock entry price, expiry date, theta and IV at entry (and
the trailing-stop state) are unchanged. -/
theorem adjust_position_frame (position : Position) (current_date : ℤ)
    (stock_price buyback_price premium_lost : ℚ) (price_of delta_of : ℚ → ℚ)
    (p' : Position) (cash_delta : ℚ)
    (hadj : adjust_position position current_date stock_price buyback_price
      premium_lost price_of delta_of = some (p', cash_delta)) :
    p'.symbol = position.symbol ∧ p'.lot_size = position.lot_size ∧
    p'.entry_date = position.entry_date ∧
    p'.stock_entry_price = position.stock_entry_price ∧
    p'.expiry_date = position.expiry_date ∧
    p'.theta_at_entry = position.theta_at_entry ∧
    p'.iv_at_entry = position.iv_at_entry ∧
    p'.profit_high_water_mark = position.profit_high_water_mark ∧
    p'.trailing_stop_active = position.trailing_stop_active ∧
    p'.adjusted = true ∧ p'.adjustment_date = some current_date ∧
    p'.adjustment_cost = buyback_price := by
  unfold adjust_position at hadj
  rcases hans : adjust_new_strike stock_price position.strike_price premium_lost
    with _ | new_strike
  · rw [hans] at hadj; exact absurd hadj (by simp)
  · rw [hans] at hadj
    simp only [Option.some.injEq, Prod.mk.injEq] at hadj
    obtain ⟨hp, -⟩ := hadj
    subst hp
    exact ⟨rfl, rfl, rfl, rfl, rfl, rfl, rfl, rfl, rfl, rfl, rfl, rfl⟩

/-- Concrete position used by witnesses. -/
def examplePosition : Position :=
  { symbol := "RELIANCE", lot_size := 10, entry_date := 0
    stock_entry_price := 8, strike_price := 15/2, premium_received := 20
    expiry_date := 30 }

/-- The strike ladder at spot 8 (tier interval 2.5). -/
theorem generate_strikes_eight : generate_strikes 8 (5/2) = [15/2, 10] := by
  norm_num [generate_strikes, pyRound]
  simp [List.range_succ]
  norm_num

/-- A concrete adjustment: spot 8, old strike 7.5, premium lost 1 rolls to
strike 10; buyback 3 and new premium 2 on 10 units move cash by -10. -/
theorem adjust_position_example :
    adjust_position examplePosition 5 8 3 1 (fun _ => 2) (fun _ => 1/4) =
      some ({ examplePosition with
        original_premium := 20, adjustment_date := some 5
        adjustment_cost := 3, strike_price := 10, premium_received := 2
        delta_at_entry := 1/4, adjusted := true }, -10) := by
  have hladder : ladder 8 = [15/2, 10] := by
    rw [ladder, show get_strike_interval 8 = 5/2 by norm_num [get_strike_interval],
      generate_strikes_eight]
  have hans : adjust_new_strike 8 (15/2) 1 = some 10 := by
    unfold adjust_new_strike
    rw [hladder]
    norm_num [List.filter, listMin]
  unfold adjust_position
  rw [show examplePosition.strike_price = 15/2 from rfl, hans]
  norm_num [examplePosition]

/-- C8 witness: the frame conditions at a concrete adjustment. -/
theorem adjust_position_frame_witness :
    ({ examplePosition with
        original_premium := 20, adjustment_date := some 5
        adjustment_cost := 3, strike_price := 10, premium_received := 2
        delta_at_entry := 1/4, adjusted := true } : Position).symbol =
      examplePosition.symbol ∧
    ({ examplePosition with
        original_premium := 20, adjustment_date := some 5
        adjustment_cost := 3, strike_price := 10, premium_received := 2
        delta_at_entry := 1/4, adjusted := true } : Position).lot_size =
      examplePosition.lot_size ∧
    ({ examplePosition with
        original_premium := 20, adjustment_date := some 5
        adjustment_cost := 3, strike_price := 10, premium_received := 2
        delta_at_entry := 1/4, adjusted := true } : Position).entry_date =
      examplePosition.entry_date ∧
    ({ examplePosition with
        original_premium := 20, adjustment_date := some 5
        adjustment_cost := 3, strike_price := 10, premium_received := 2
        delta_at_entry := 1/4, adjusted := true } : Position).stock_entry_price =
      examplePosition.stock_entry_price ∧
    ({ examplePosition with
        original_premium := 20, adjustment_date := some 5
        adjustment_cost := 3, strike_price := 10, premium_received := 2
        delta_at_entry := 1/4, adjusted := true } : Position).expiry_date =
      examplePosition.expiry_date ∧
    ({ examplePosition with
        original_premium := 20, adjustment_date := some 5
        adjustment_cost := 3, strike_price := 10, premium_received := 2
        delta_at_entry := 1/4, adjusted := true } : Position).theta_at_entry =
      examplePosition.theta_at_entry ∧
    ({ examplePosition with
        original_premium := 20, adjustment_date := some 5
        adjustment_cost := 3, strike_price := 10, premium_received := 2
        delta_at_entry := 1/4, adjusted := true } : Position).iv_at_entry =
      examplePosition.iv_at_entry ∧
    ({ examplePosition with
        original_premium := 20, adjustment_date := some 5
        adjustment_cost := 3, strike_price := 10, premium_received := 2
        delta_at_entry := 1/4, adjusted := true } : Position).profit_high_water_mark =
      examplePosition.profit_high_water_mark ∧
    ({ examplePosition with
        original_premium := 20, adjustment_date := some 5
        adjustment_cost := 3, strike_price := 10, premium_received := 2
        delta_at_entry := 1/4, adjusted := true } : Position).trailing_stop_active =
      examplePosition.trailing_stop_active ∧
    ({ examplePosition with
        original_premium := 20, adjustment_date := some 5
        adjustment_cost := 3, strike_price := 10, premium_received := 2
        delta_at_entry := 1/4, adjusted := true } : Position).adjusted = true ∧
    ({ examplePosition with
        original_premium := 20, adjustment_date := some 5
        adjustment_cost := 3, strike_price := 10, premium_received := 2
        delta_at_entry := 1/4, adjusted := true } : Position).adjustment_date =
      some 5 ∧
    ({ examplePosition with
        original_premium := 20, adjustment_date := some 5
        adjustment_cost := 3, strike_price := 10, premium_received := 2
        delta_at_entry := 1/4, adjusted := true } : Position).adjustment_cost =
      3 :=
  adjust_position_frame examplePosition 5 8 3 1 (fun _ => 2)
    (fun _ => 1/4) _ (-10) adjust_position_example

/-- Complete description of the first-wins scan `argminGo`: either the
starting `best` already has a minimal key among the list (and is returned),
or the scan returns the first list element that strictly beats `best` and
every other element. -/
theorem argminGo_cases (key : ℚ → ℚ) :
    ∀ (xs : List ℚ) (best : ℚ),
      (argminGo key xs best = best ∧ ∀ x ∈ xs, key best ≤ key x) ∨
      (∃ i, ∃ h : i < xs.length,
        argminGo key xs best = xs.get ⟨i, h⟩ ∧
        key (xs.get ⟨i, h⟩) < key best ∧
        (∀ j (hj : j < xs.length), key (xs.get ⟨i, h⟩) ≤ key (xs.get ⟨j, hj⟩)) ∧
        (∀ j (hj : j < xs.length), j < i →
          key (xs.get ⟨i, h⟩) < key (xs.get ⟨j, hj⟩))) := by
  intro xs
  induction xs with
  | nil =>
    intro best
    exact Or.inl ⟨rfl, fun x hx => absurd hx (List.not_mem_nil x)⟩
  | cons x xs ih =>
    intro best
    by_cases hlt : key x < key best
    · rw [show argminGo key (x :: xs) best = argminGo key xs x from by
        rw [argminGo, if_pos hlt]]
      rcases ih x with ⟨heq, hall⟩ | ⟨i, hi, heq, hlt2, hmin, hstr⟩
      · right
        refine ⟨0, Nat.succ_pos _, by simpa using heq, by simpa using hlt,
          ?_, ?_⟩
        · intro j hj
          cases j with
          | zero => exact le_rfl
          | succ k =>
            have hk : k < xs.length := Nat.lt_of_succ_lt_succ hj
            exact hall (xs.get ⟨k, hk⟩) (xs.get_mem k hk)
        · intro j hj hj0
          exact absurd hj0 (Nat.not_lt_zero j)
      · right
        refine ⟨i + 1, Nat.succ_lt_succ hi, heq, lt_trans hlt2 hlt, ?_, ?_⟩
        · intro j hj
          cases j with
          | zero => exact le_of_lt hlt2
          | succ k =>
            have hk : k < xs.length := Nat.lt_of_succ_lt_succ hj
            exact hmin k hk
        · intro j hj hji
          cases j with
          | zero => exact hlt2
          | succ k =>
            have hk : k < xs.length := Nat.lt_of_succ_lt_succ hj
            exact hstr k hk (Nat.lt_of_succ_lt_succ hji)
    · rw [show argminGo key (x :: xs) best = argminGo key xs best from by
        rw [argminGo, if_neg hlt]]
      rcases ih best with ⟨heq, hall⟩ | ⟨i, hi, heq, hlt2, hmin, hstr⟩
      · left
        refine ⟨heq, ?_⟩
        intro y hy
        rcases List.mem_cons.mp hy with rfl | hy
        · exact not_lt.mp hlt
        · exact hall y hy
      · right
        refine ⟨i + 1, Nat.succ_lt_succ hi, heq, hlt2, ?_, ?_⟩
        · intro j hj
          cases j with
          | zero => exact le_of_lt (lt_of_lt_of_le hlt2 (not_lt.mp hlt))
          | succ k =>
            have hk : k < xs.length := Nat.lt_of_succ_lt_succ hj
            exact hmin k hk
        · intro j hj hji
          cases j with
          | zero => exact lt_of_lt_of_le hlt2 (not_lt.mp hlt)
          | succ k =>
            have hk : k < xs.length := Nat.lt_of_succ_lt_succ hj
            exact hstr k hk (Nat.lt_of_succ_lt_succ hji)

/-- `argminFirst` on a non-empty list returns the element whose key is
minimal, the first such element when several tie. -/
theorem argminFirst_spec (key : ℚ → ℚ) (xs : List ℚ) (hne : xs ≠ []) :
    ∃ i, ∃ h : i < xs.length,
      argminFirst key xs = some (xs.get ⟨i, h⟩) ∧
      (∀ j (hj : j < xs.length), key (xs.get ⟨i, h⟩) ≤ key (xs.get ⟨j, hj⟩)) ∧
      (∀ j (hj : j < xs.length), j < i →
        key (xs.get ⟨i, h⟩) < key (xs.get ⟨j, hj⟩)) := by
  cases xs with
  | nil => exact absurd rfl hne
  | cons x xs =>
    rcases argminGo_cases key xs x with ⟨heq, hall⟩ | ⟨i, hi, heq, hlt2, hmin, hstr⟩
    · refine ⟨0, Nat.succ_pos _, by simpa [argminFirst] using heq, ?_, ?_⟩
      · intro j hj
        cases j with
        | zero => exact le_rfl
        | succ k =>
          have hk : k < xs.length := Nat.lt_of_succ_lt_succ hj
          exact hall (xs.get ⟨k, hk⟩) (xs.get_mem k hk)
      · intro j hj hj0
        exact absurd hj0 (Nat.not_lt_zero j)
    · refine ⟨i + 1, Nat.succ_lt_succ hi, by simpa [argminFirst] using heq,
        ?_, ?_⟩
      · intro j hj
        cases j with
        | zero => exact le_of_lt hlt2
        | succ k =>
          have hk : k < xs.length := Nat.lt_of_succ_lt_succ hj
          exact hmin k hk
      · intro j hj hji
        cases j with
        | zero => exact hlt2
        | succ k =>
          have hk : k < xs.length := Nat.lt_of_succ_lt_succ hj
          exact hstr k hk (Nat.lt_of_succ_lt_succ hji)

/-- `argminFirst` answers with an element of its input list. -/
theorem argminFirst_isSome (key : ℚ → ℚ) (xs : List ℚ) (hne : xs ≠ []) :
    ∃ r, argminFirst key xs = some r ∧ r ∈ xs := by
  obtain ⟨i, h, heq, -, -⟩ := argminFirst_spec key xs hne
  exact ⟨xs.get ⟨i, h⟩, heq, xs.get_mem i h⟩

/-- C6: on a non-empty candidate list, `find_strike_by_delta` returns the
strike minimizing the delta difference (`|delta - target|`, absolute deltas
for puts) by a linear scan in list order, and with ties the first strike
reaching the minimum is returned: every earlier strike has a strictly larger
difference. -/
theorem find_strike_by_delta_first_min (delta_of : ℚ → ℚ) (target_delta : ℚ)
    (option_type_pe : Bool) (strikes : List ℚ) (hne : strikes ≠ []) :
    ∃ i, ∃ h : i < strikes.length,
      (find_strike_by_delta delta_of target_delta strikes option_type_pe).1 =
        some (strikes.get ⟨i, h⟩) ∧
      (find_strike_by_delta delta_of target_delta strikes option_type_pe).2 =
        some (delta_of (strikes.get ⟨i, h⟩)) ∧
      (∀ j (hj : j < strikes.length),
        delta_diff delta_of target_delta option_type_pe (strikes.get ⟨i, h⟩) ≤
          delta_diff delta_of target_delta option_type_pe (strikes.get ⟨j, hj⟩)) ∧
      (∀ j (hj : j < strikes.length), j < i →
        delta_diff delta_of target_delta option_type_pe (strikes.get ⟨i, h⟩) <
          delta_diff delta_of target_delta option_type_pe (strikes.get ⟨j, hj⟩)) := by
  obtain ⟨i, h, heq, hmin, hstr⟩ :=
    argminFirst_spec (delta_diff delta_of target_delta option_type_pe) strikes hne
  refine ⟨i, h, ?_, ?_, hmin, hstr⟩
  · rw [find_strike_by_delta, heq]
  · rw [find_strike_by_delta, heq]

/-- C6 witness: with identity deltas and target 104, the scan over
`[100, 105]` picks the strike 105 (index 1). -/
theorem find_strike_by_delta_first_min_witness :
    ∃ i, ∃ h : i < ([100, 105] : List ℚ).length,
      (find_strike_by_delta (fun s => s) 104 [100, 105] false).1 =
        some (([100, 105] : List ℚ).get ⟨i, h⟩) ∧
      (find_strike_by_delta (fun s => s) 104 [100, 105] false).2 =
        some ((fun s => s) (([100, 105] : List ℚ).get ⟨i, h⟩)) ∧
      (∀ j (hj : j < ([100, 105] : List ℚ).length),
        delta_diff (fun s => s) 104 false (([100, 105] : List ℚ).get ⟨i, h⟩) ≤
          delta_diff (fun s => s) 104 false (([100, 105] : List ℚ).get ⟨j, hj⟩)) ∧
      (∀ j (hj : j < ([100, 105] : List ℚ).length), j < i →
        delta_diff (fun s => s) 104 false (([100, 105] : List ℚ).get ⟨i, h⟩) <
          delta_diff (fun s => s) 104 false (([100, 105] : List ℚ).get ⟨j, hj⟩)) :=
  find_strike_by_delta_first_min (fun s => s) 104 false [100, 105] (by simp)

theorem pyRound_ge_floor (q : ℚ) : ⌊q⌋ ≤ pyRound q := by
  rw [pyRound]; split_ifs <;> omega

theorem pyRound_le_floor_add_one (q : ℚ) : pyRound q ≤ ⌊q⌋ + 1 := by
  rw [pyRound]; split_ifs <;> omega

theorem pyRound_lb (q : ℚ) : q - 1/2 ≤ (pyRound q : ℚ) := by
  have h1 : (⌊q⌋ : ℚ) ≤ q := Int.floor_le q
  have h2 : q < ⌊q⌋ + 1 := Int.lt_floor_add_one q
  rw [pyRound]; split_ifs <;> push_cast <;> linarith

theorem pyRound_ub (q : ℚ) : (pyRound q : ℚ) ≤ q + 1/2 := by
  have h1 : (⌊q⌋ : ℚ) ≤ q := Int.floor_le q
  have h2 : q < ⌊q⌋ + 1 := Int.lt_floor_add_one q
  rw [pyRound]; split_ifs <;> push_cast <;> linarith

theorem pyRound_mono {a b : ℚ} (hab : a ≤ b) : pyRound a ≤ pyRound b := by
  rcases lt_or_eq_of_le (Int.floor_le_floor hab) with hlt | heq
  · have h1 := pyRound_le_floor_add_one a
    have h2 := pyRound_ge_floor b
    omega
  · rw [pyRound, pyRound, ← heq]
    split_ifs <;> first | omega | (exfalso; linarith)

theorem get_strike_interval_pos (p : ℚ) : 0 < get_strike_interval p := by
  rw [get_strike_interval]; split_ifs <;> norm_num

/-- The ladder written as an explicit arithmetic progression. -/
theorem generate_strikes_eq (p i : ℚ) (hp : 0 ≤ p) (hi : 0 < i) :
    generate_strikes p i =
      (List.range ((pyRound (p * (12/10) / i) -
          pyRound (p * (9/10) / i)).toNat + 1)).map
        fun (k : ℕ) => (pyRound (p * (9/10) / i) : ℚ) * i + (k : ℚ) * i := by
  have hdiv : p * (9/10) / i ≤ p * (12/10) / i :=
    div_le_div_of_nonneg_right (by nlinarith) hi.le
  have hk : pyRound (p * (9/10) / i) ≤ pyRound (p * (12/10) / i) :=
    pyRound_mono hdiv
  have hse : (pyRound (p * (9/10) / i) : ℚ) * i ≤
      (pyRound (p * (12/10) / i) : ℚ) * i :=
    mul_le_mul_of_nonneg_right (by exact_mod_cast hk) hi.le
  have hfl : ((pyRound (p * (12/10) / i) : ℚ) * i -
      (pyRound (p * (9/10) / i) : ℚ) * i) / i =
      ((pyRound (p * (12/10) / i) - pyRound (p * (9/10) / i) : ℤ) : ℚ) := by
    field_simp
    ring
  simp only [generate_strikes]
  rw [if_pos hse, hfl, Int.floor_intCast]

theorem generate_strikes_nonempty (p i : ℚ) (hp : 0 ≤ p) (hi : 0 < i) :
    generate_strikes p i ≠ [] := by
  rw [generate_strikes_eq p i hp hi]
  simp [List.range_succ]

theorem generate_strikes_multiple (p i : ℚ) (hp : 0 ≤ p) (hi : 0 < i) :
    ∀ s ∈ generate_strikes p i, ∃ k : ℤ, s = (k : ℚ) * i := by
  intro s hs
  rw [generate_strikes_eq p i hp hi] at hs
  obtain ⟨k, -, rfl⟩ := List.mem_map.mp hs
  refine ⟨pyRound (p * (9/10) / i) + (k : ℤ), ?_⟩
  push_cast
  ring

theorem generate_strikes_bounds (p i : ℚ) (hp : 0 ≤ p) (hi : 0 < i) :
    ∀ s ∈ generate_strikes p i,
      p * (9/10) - i/2 ≤ s ∧ s ≤ p * (12/10) + i/2 := by
  intro s hs
  rw [generate_strikes_eq p i hp hi] at hs
  obtain ⟨k, hk, rfl⟩ := List.mem_map.mp hs
  have hkr := List.mem_range.mp hk
  have hk1 : pyRound (p * (9/10) / i) ≤ pyRound (p * (12/10) / i) :=
    pyRound_mono (div_le_div_of_nonneg_right (by nlinarith) hi.le)
  have hkk : (k : ℤ) ≤ pyRound (p * (12/10) / i) - pyRound (p * (9/10) / i) := by
    omega
  constructor
  · have hlo : p * (9/10) / i - 1/2 ≤ (pyRound (p * (9/10) / i) : ℚ) :=
      pyRound_lb _
    have hdm : p * (9/10) / i * i = p * (9/10) := div_mul_cancel₀ _ hi.ne.symm
    nlinarith [mul_le_mul_of_nonneg_right hlo hi.le,
      mul_nonneg (by positivity : (0:ℚ) ≤ (k:ℚ)) hi.le]
  · have hhi : (pyRound (p * (12/10) / i) : ℚ) ≤ p * (12/10) / i + 1/2 :=
      pyRound_ub _
    have hdm : p * (12/10) / i * i = p * (12/10) := div_mul_cancel₀ _ hi.ne.symm
    have hkq : (k : ℚ) ≤
        (pyRound (p * (12/10) / i) : ℚ) - (pyRound (p * (9/10) / i) : ℚ) := by
      exact_mod_cast hkk
    linarith [mul_le_mul_of_nonneg_right hhi hi.le,
      mul_le_mul_of_nonneg_right hkq hi.le]

theorem listMax_eq_none (xs : List ℚ) (h : listMax xs = none) : xs = [] := by
  cases xs with
  | nil => rfl
  | cons x xs =>
    rw [listMax] at h
    cases hx : listMax xs <;> rw [hx] at h <;> exact absurd h (by simp)

theorem listMin_eq_none (xs : List ℚ) (h : listMin xs = none) : xs = [] := by
  cases xs with
  | nil => rfl
  | cons x xs =>
    rw [listMin] at h
    cases hx : listMin xs <;> rw [hx] at h <;> exact absurd h (by simp)

theorem listMax_spec :
    ∀ (xs : List ℚ) (m : ℚ), listMax xs = some m → m ∈ xs ∧ ∀ x ∈ xs, x ≤ m := by
  intro xs
  induction xs with
  | nil => intro m h; exact absurd h (by simp [listMax])
  | cons x xs ih =>
    intro m h
    rw [listMax] at h
    cases hx : listMax xs with
    | none =>
      obtain rfl := listMax_eq_none xs hx
      rw [hx] at h
      injection h with h
      refine ⟨by rw [← h]; exact List.mem_cons_self x [], ?_⟩
      intro y hy
      rcases List.mem_singleton.mp hy with rfl
      exact le_of_eq h
    | some mx =>
      rw [hx] at h
      injection h with h
      obtain ⟨hmem, hall⟩ := ih mx hx
      constructor
      · rcases max_choice x mx with hc | hc
        · rw [← h, hc]; exact List.mem_cons_self x xs
        · rw [← h, hc]; exact List.mem_cons_of_mem x hmem
      · intro y hy
        rcases List.mem_cons.mp hy with rfl | hy
        · rw [← h]; exact le_max_left _ _
        · rw [← h]; exact le_trans (hall y hy) (le_max_right _ _)

theorem listMin_spec :
    ∀ (xs : List ℚ) (m : ℚ), listMin xs = some m → m ∈ xs ∧ ∀ x ∈ xs, m ≤ x := by
  intro xs
  induction xs with
  | nil => intro m h; exact absurd h (by simp [listMin])
  | cons x xs ih =>
    intro m h
    rw [listMin] at h
    cases hx : listMin xs with
    | none =>
      obtain rfl := listMin_eq_none xs hx
      rw [hx] at h
      injection h with h
      refine ⟨by rw [← h]; exact List.mem_cons_self x [], ?_⟩
      intro y hy
      rcases List.mem_singleton.mp hy with rfl
      exact le_of_eq h.symm
    | some mx =>
      rw [hx] at h
      injection h with h
      obtain ⟨hmem, hall⟩ := ih mx hx
      constructor
      · rcases min_choice x mx with hc | hc
        · rw [← h, hc]; exact List.mem_cons_self x xs
        · rw [← h, hc]; exact List.mem_cons_of_mem x hmem
      · intro y hy
        rcases List.mem_cons.mp hy with rfl | hy
        · rw [← h]; exact min_le_left _ _
        · rw [← h]; exact le_trans (min_le_right _ _) (hall y hy)

theorem listMax_isSome (xs : List ℚ) (hne : xs ≠ []) :
    ∃ m, listMax xs = some m := by
  cases xs with
  | nil => exact absurd rfl hne
  | cons x xs => rw [listMax]; cases listMax xs <;> simp

theorem listMin_isSome (xs : List ℚ) (hne : xs ≠ []) :
    ∃ m, listMin xs = some m := by
  cases xs with
  | nil => exact absurd rfl hne
  | cons x xs => rw [listMin]; cases listMin xs <;> simp

theorem find_strike_fst_mem (delta_of : ℚ → ℚ) (target_delta : ℚ)
    (option_type_pe : Bool) (xs : List ℚ) (hne : xs ≠ []) :
    ∃ r, (find_strike_by_delta delta_of target_delta xs option_type_pe).1 =
      some r ∧ r ∈ xs := by
  obtain ⟨r, heq, hmem⟩ := argminFirst_isSome
    (delta_diff delta_of target_delta option_type_pe) xs hne
  exact ⟨r, by rw [find_strike_by_delta, heq], hmem⟩

theorem ladder_nonempty (stock_price : ℚ) (hp : 0 < stock_price) :
    ladder stock_price ≠ [] :=
  generate_strikes_nonempty _ _ hp.le (get_strike_interval_pos _)

/-- Every branch of `_select_strike` answers with a member of the generated
ladder. -/
theorem select_strike_mem (method : String) (stock_price : ℚ)
    (atr atr_multiplier : ℚ) (iv_target_delta : Option ℚ) (delta_of : ℚ → ℚ)
    (pivots : Option Pivots) (boll_upper : Option ℚ) (hp : 0 < stock_price) :
    ∃ s, select_strike method stock_price atr atr_multiplier iv_target_delta
        delta_of pivots boll_upper = some s ∧ s ∈ ladder stock_price := by
  have hne := ladder_nonempty stock_price hp
  have hgen : ∀ key : ℚ → ℚ, ∃ s, argminFirst key (ladder stock_price) = some s ∧
      s ∈ ladder stock_price := fun key => argminFirst_isSome key _ hne
  delta select_strike
  by_cases h1 : method = "ATR_BASED"
  · rw [if_pos h1]; exact hgen _
  rw [if_neg h1]
  by_cases h2 : method = "ADAPTIVE_DELTA"
  · rw [if_pos h2]; exact find_strike_fst_mem _ _ _ _ hne
  rw [if_neg h2]
  by_cases h3 : method = "DELTA_30"
  · rw [if_pos h3]; exact find_strike_fst_mem _ _ _ _ hne
  rw [if_neg h3]
  by_cases h4 : method = "DELTA_40"
  · rw [if_pos h4]; exact find_strike_fst_mem _ _ _ _ hne
  rw [if_neg h4]
  by_cases h5 : method = "OTM_2PCT"
  · rw [if_pos h5]; exact hgen _
  rw [if_neg h5]
  by_cases h6 : method = "OTM_5PCT"
  · rw [if_pos h6]; exact hgen _
  rw [if_neg h6]
  by_cases h7 : method = "ATM"
  · rw [if_pos h7]; exact hgen _
  rw [if_neg h7]
  by_cases h8 : method = "PIVOT_R1"
  · rw [if_pos h8]; rcases pivots with _ | pv
    · exact hgen _
    · exact hgen _
  rw [if_neg h8]
  by_cases h9 : method = "PIVOT_R2"
  · rw [if_pos h9]; rcases pivots with _ | pv
    · exact hgen _
    · exact hgen _
  rw [if_neg h9]
  by_cases h10 : method = "BOLLINGER_UPPER"
  · rw [if_pos h10]; rcases boll_upper with _ | u
    · exact hgen _
    · show ∃ s, (if stock_price < u then
          argminFirst (fun x => abs (x - u)) (ladder stock_price)
        else argminFirst (fun x => abs (x - stock_price * (102/100)))
          (ladder stock_price)) = some s ∧ s ∈ ladder stock_price
      by_cases hu : stock_price < u
      · rw [if_pos hu]; exact hgen _
      · rw [if_neg hu]; exact hgen _
  rw [if_neg h10]
  exact hgen _

/-- The roll-up's new strike is always a ladder member: the least valid
strike, or the ladder maximum when no strike is high enough. -/
theorem adjust_new_strike_mem (stock_price strike_price premium_lost : ℚ)
    (hp : 0 < stock_price) :
    ∃ m, adjust_new_strike stock_price strike_price premium_lost = some m ∧
      m ∈ ladder stock_price := by
  have hne := ladder_nonempty stock_price hp
  unfold adjust_new_strike
  split_ifs with hv
  · obtain ⟨m, hm⟩ := listMax_isSome _ hne
    exact ⟨m, hm, (listMax_spec _ m hm).1⟩
  · obtain ⟨m, hm⟩ := listMin_isSome _ hv
    refine ⟨m, hm, ?_⟩
    exact List.mem_of_mem_filter (listMin_spec _ m hm).1

/-- C4: for every method (including the unknown-method default and every
fallback branch) and for every adjustment, the selected strike is an exact
member of the discrete ladder generated for the spot: the ladder uses the
price-tier interval (2.5 below 100, 5 below 500, 10 below 1000, 25 below
2500, 50 below 5000, 100 at or above 5000), every ladder strike is an
integer multiple of that interval, and the ladder spans 90% to 120% of spot
up to the half-interval rounding of its endpoints. -/
theorem strike_ladder_membership (stock_price : ℚ) (hp : 0 < stock_price) :
    (∀ (method : String) (atr atr_multiplier : ℚ)
        (iv_target_delta : Option ℚ) (delta_of : ℚ → ℚ)
        (pivots : Option Pivots) (boll_upper : Option ℚ),
      ∃ s, select_strike method stock_price atr atr_multiplier iv_target_delta
          delta_of pivots boll_upper = some s ∧
        s ∈ generate_strikes stock_price (get_strike_interval stock_price)) ∧
    (∀ strike_price premium_lost : ℚ,
      ∃ m, adjust_new_strike stock_price strike_price premium_lost = some m ∧
        m ∈ generate_strikes stock_price (get_strike_interval stock_price)) ∧
    (∀ s ∈ generate_strikes stock_price (get_strike_interval stock_price),
      ∃ k : ℤ, s = (k : ℚ) * get_strike_interval stock_price) ∧
    (∀ s ∈ generate_strikes stock_price (get_strike_interval stock_price),
      stock_price * (9/10) - get_strike_interval stock_price / 2 ≤ s ∧
        s ≤ stock_price * (12/10) + get_strike_interval stock_price / 2) ∧
    (stock_price < 100 → get_strike_interval stock_price = 5/2) ∧
    (¬ stock_price < 100 → stock_price < 500 →
      get_strike_interval stock_price = 5) ∧
    (¬ stock_price < 500 → stock_price < 1000 →
      get_strike_interval stock_price = 10) ∧
    (¬ stock_price < 1000 → stock_price < 2500 →
      get_strike_interval stock_price = 25) ∧
    (¬ stock_price < 2500 → stock_price < 5000 →
      get_strike_interval stock_price = 50) ∧
    (¬ stock_price < 5000 → get_strike_interval stock_price = 100) := by
  refine ⟨?_, ?_, ?_, ?_, ?_, ?_, ?_, ?_, ?_, ?_⟩
  · intro method atr am ivd delta_of pivots bu
    exact select_strike_mem method stock_price atr am ivd delta_of pivots bu hp
  · intro strike pl
    exact adjust_new_strike_mem stock_price strike pl hp
  · exact generate_strikes_multiple _ _ hp.le (get_strike_interval_pos _)
  · exact generate_strikes_bounds _ _ hp.le (get_strike_interval_pos _)
  · intro h1
    rw [get_strike_interval, if_pos h1]
  · intro h1 h2
    rw [get_strike_interval, if_neg h1, if_pos h2]
  · intro h2 h3
    have h1 : ¬ stock_price < 100 := by intro h; exact h2 (by linarith)
    rw [get_strike_interval, if_neg h1, if_neg h2, if_pos h3]
  · intro h3 h4
    have h2 : ¬ stock_price < 500 := by intro h; exact h3 (by linarith)
    have h1 : ¬ stock_price < 100 := by intro h; exact h2 (by linarith)
    rw [get_strike_interval, if_neg h1, if_neg h2, if_neg h3, if_pos h4]
  · intro h4 h5
    have h3 : ¬ stock_price < 1000 := by intro h; exact h4 (by linarith)
    have h2 : ¬ stock_price < 500 := by intro h; exact h3 (by linarith)
    have h1 : ¬ stock_price < 100 := by intro h; exact h2 (by linarith)
    rw [get_strike_interval, if_neg h1, if_neg h2, if_neg h3, if_neg h4,
      if_pos h5]
  · intro h5
    have h4 : ¬ stock_price < 2500 := by intro h; exact h5 (by linarith)
    have h3 : ¬ stock_price < 1000 := by intro h; exact h4 (by linarith)
    have h2 : ¬ stock_price < 500 := by intro h; exact h3 (by linarith)
    have h1 : ¬ stock_price < 100 := by intro h; exact h2 (by linarith)
    rw [get_strike_interval, if_neg h1, if_neg h2, if_neg h3, if_neg h4,
      if_neg h5]

/-- C4 witness: the ladder facts at spot 8. -/
theorem strike_ladder_membership_witness :
    (∀ (method : String) (atr atr_multiplier : ℚ)
        (iv_target_delta : Option ℚ) (delta_of : ℚ → ℚ)
        (pivots : Option Pivots) (boll_upper : Option ℚ),
      ∃ s, select_strike method 8 atr atr_multiplier iv_target_delta
          delta_of pivots boll_upper = some s ∧
        s ∈ generate_strikes 8 (get_strike_interval 8)) ∧
    (∀ strike_price premium_lost : ℚ,
      ∃ m, adjust_new_strike 8 strike_price premium_lost = some m ∧
        m ∈ generate_strikes 8 (get_strike_interval 8)) ∧
    (∀ s ∈ generate_strikes 8 (get_strike_interval 8),
      ∃ k : ℤ, s = (k : ℚ) * get_strike_interval 8) ∧
    (∀ s ∈ generate_strikes 8 (get_strike_interval 8),
      (8 : ℚ) * (9/10) - get_strike_interval 8 / 2 ≤ s ∧
        s ≤ (8 : ℚ) * (12/10) + get_strike_interval 8 / 2) ∧
    ((8 : ℚ) < 100 → get_strike_interval 8 = 5/2) ∧
    (¬ (8 : ℚ) < 100 → (8 : ℚ) < 500 → get_strike_interval 8 = 5) ∧
    (¬ (8 : ℚ) < 500 → (8 : ℚ) < 1000 → get_strike_interval 8 = 10) ∧
    (¬ (8 : ℚ) < 1000 → (8 : ℚ) < 2500 → get_strike_interval 8 = 25) ∧
    (¬ (8 : ℚ) < 2500 → (8 : ℚ) < 5000 → get_strike_interval 8 = 50) ∧
    (¬ (8 : ℚ) < 5000 → get_strike_interval 8 = 100) :=
  strike_ladder_membership 8 (by norm_num)

/-- C2: on every day on which early exits are evaluated for an open position
(`0 < dte`), the exit conditions are applied in the fixed precedence order
DTE exit, trailing stop, profit target, stop loss: the decision equals the
first-match cascade over the four named conditions, so the first condition
that matches determines the position's single exit (or adjustment) for the
day and later conditions are not applied. -/
theorem early_exit_precedence (cfg : BacktestConfig) (position : Position)
    (dte : ℤ) (current_option_price : ℚ) (hdte : 0 < dte) :
    (check_early_exit cfg position dte current_option_price).decision =
      (if dte_exit_cond cfg dte then ExitDecision.close (.dte_exit dte)
      else if trailing_stop_cond cfg position current_option_price then
        .close (.trailing_stop (pyInt (updated_hwm cfg position current_option_price)))
      else if profit_target_cond cfg position current_option_price then
        .close (.profit_target (pyInt cfg.profit_target_pct))
      else if stop_loss_cond cfg position current_option_price then
        stop_loss_outcome cfg position current_option_price
      else .no_action) := by
  simp only [check_early_exit, dte_exit_cond, trailing_stop_cond,
    profit_target_cond, stop_loss_cond, stop_loss_outcome, updated_hwm,
    updated_active, profit_pct_of, option_pnl_of]
  rw [if_neg (not_le.mpr hdte)]
  split_ifs <;> rfl

/-- C2 witness: the precedence cascade at a concrete configuration where the
DTE exit fires. -/
theorem early_exit_precedence_witness :
    (check_early_exit
        { exit_strategy := "PROFIT_TARGET_AND_STOP_LOSS", use_dte_exit := true }
        examplePosition 5 10).decision =
      (if dte_exit_cond
          { exit_strategy := "PROFIT_TARGET_AND_STOP_LOSS", use_dte_exit := true } 5
      then ExitDecision.close (.dte_exit 5)
      else if trailing_stop_cond
          { exit_strategy := "PROFIT_TARGET_AND_STOP_LOSS", use_dte_exit := true }
          examplePosition 10 then
        .close (.trailing_stop (pyInt (updated_hwm
          { exit_strategy := "PROFIT_TARGET_AND_STOP_LOSS", use_dte_exit := true }
          examplePosition 10)))
      else if profit_target_cond
          { exit_strategy := "PROFIT_TARGET_AND_STOP_LOSS", use_dte_exit := true }
          examplePosition 10 then
        .close (.profit_target (pyInt
          ({ exit_strategy := "PROFIT_TARGET_AND_STOP_LOSS", use_dte_exit := true
            : BacktestConfig }).profit_target_pct))
      else if stop_loss_cond
          { exit_strategy := "PROFIT_TARGET_AND_STOP_LOSS", use_dte_exit := true }
          examplePosition 10 then
        stop_loss_outcome
          { exit_strategy := "PROFIT_TARGET_AND_STOP_LOSS", use_dte_exit := true }
          examplePosition 10
      else .no_action) :=
  early_exit_precedence _ _ _ _ (by norm_num)

set_option maxHeartbeats 1000000 in
theorem check_early_exit_adjust_not_adjusted (cfg : BacktestConfig)
    (position : Position) (dte : ℤ) (current_option_price premium_lost : ℚ)
    (h : (check_early_exit cfg position dte current_option_price).decision =
      .adjust premium_lost) :
    position.adjusted = false ∧ cfg.allow_sl_adjustment = true := by
  simp only [check_early_exit] at h
  split_ifs at h with h0 h1 h2 h3 h4 h5 <;> simp_all

theorem adjust_position_adjusted (position : Position) (current_date : ℤ)
    (stock_price buyback_price premium_lost : ℚ) (price_of delta_of : ℚ → ℚ)
    (p' : Position) (cash_delta : ℚ)
    (h : adjust_position position current_date stock_price buyback_price
      premium_lost price_of delta_of = some (p', cash_delta)) :
    p'.adjusted = true := by
  unfold adjust_position at h
  rcases hans : adjust_new_strike stock_price position.strike_price premium_lost
    with _ | ns
  · rw [hans] at h; exact absurd h (by simp)
  · rw [hans] at h
    simp only [Option.some.injEq, Prod.mk.injEq] at h
    obtain ⟨hp, -⟩ := h
    subst hp
    rfl

theorem step_day_still_open_adjusted (cfg : BacktestConfig)
    (position : Position) (d : DayInput) (p' : Position) (b : Bool)
    (hadj : position.adjusted = true)
    (h : step_day cfg position d = some (.still_open p', b)) :
    p'.adjusted = true ∧ b = false := by
  simp only [step_day] at h
  split_ifs at h with h0
  · exact absurd h (by simp)
  · split at h
    · simp only [Option.some.injEq, Prod.mk.injEq,
        StepResult.still_open.injEq] at h
      obtain ⟨hp, hb⟩ := h
      subst hp
      exact ⟨hadj, hb.symm⟩
    · exact absurd h (by simp)
    · rename_i pl hdec
      obtain ⟨hfalse, -⟩ :=
        check_early_exit_adjust_not_adjusted cfg position d.dte
          d.current_option_price pl hdec
      rw [hadj] at hfalse
      exact absurd hfalse (by simp)

theorem step_day_flag_adjusted (cfg : BacktestConfig) (position : Position)
    (d : DayInput) (p' : Position)
    (h : step_day cfg position d = some (.still_open p', true)) :
    p'.adjusted = true := by
  simp only [step_day] at h
  split_ifs at h with h0
  · exact absurd h (by simp)
  · split at h
    · simp only [Option.some.injEq, Prod.mk.injEq,
        StepResult.still_open.injEq] at h
      exact absurd h.2 (by simp)
    · exact absurd h (by simp)
    · split at h
      · exact absurd h (by simp)
      · rename_i pq hadj2
        simp only [Option.some.injEq, Prod.mk.injEq,
          StepResult.still_open.injEq] at h
        obtain ⟨hp, -⟩ := h
        subst hp
        exact adjust_position_adjusted _ _ _ _ _ _ _ _ _ hadj2

theorem run_days_adjusted_zero (cfg : BacktestConfig) :
    ∀ (ds : List DayInput) (position : Position),
      position.adjusted = true → run_days cfg position ds = 0 := by
  intro ds
  induction ds with
  | nil => intro position _; rfl
  | cons d ds ih =>
    intro position hadj
    rw [run_days]
    rcases hs : step_day cfg position d with _ | ⟨sr, b⟩
    · rfl
    · rcases sr with p' | r
      · obtain ⟨hp', hb⟩ :=
          step_day_still_open_adjusted cfg position d p' b hadj hs
        subst hb
        simpa using ih p' hp'
      · rfl

theorem run_days_le_one (cfg : BacktestConfig) :
    ∀ (ds : List DayInput) (position : Position),
      run_days cfg position ds ≤ 1 := by
  intro ds
  induction ds with
  | nil => intro position; exact Nat.zero_le 1
  | cons d ds ih =>
    intro position
    rw [run_days]
    rcases hs : step_day cfg position d with _ | ⟨sr, b⟩
    · exact Nat.zero_le 1
    · rcases sr with p' | r
      · rcases b with _ | _
        · simpa using ih p'
        · have hp' := step_day_flag_adjusted cfg position d p' hs
          have h0 := run_days_adjusted_zero cfg ds p' hp'
          simp [h0]
      · exact Nat.zero_le 1

set_option maxHeartbeats 2000000 in
/-- C3: the roll-up adjustment happens at most once per position: across any
run of simulated days at most one adjustment is performed, an already
adjusted position can never be adjusted again by a stop-loss hit (the
stop-loss close then carries the position's adjusted flag, whose reason
string is suffixed `_AFTER_ADJ`), and when no ladder strike reaches the
required minimum new strike the adjustment clamps to the ladder's maximum
strike instead of failing. -/
theorem at_most_one_adjustment :
    (∀ (cfg : BacktestConfig) (position : Position) (ds : List DayInput),
      run_days cfg position ds ≤ 1) ∧
    (∀ (cfg : BacktestConfig) (position : Position) (dte : ℤ)
        (current_option_price premium_lost : ℚ),
      position.adjusted = true →
      (check_early_exit cfg position dte current_option_price).decision ≠
        .adjust premium_lost) ∧
    (∀ (cfg : BacktestConfig) (position : Position) (dte : ℤ)
        (current_option_price m : ℚ) (b : Bool),
      (check_early_exit cfg position dte current_option_price).decision =
        .close (.stop_loss m b) →
      b = position.adjusted ∧ m = cfg.stop_loss_multiple) ∧
    (∀ m : ℚ, ∃ s : String,
      reason_string (.stop_loss m true) = s ++ "_AFTER_ADJ") ∧
    (∀ stock_price strike_price premium_lost : ℚ, 0 < stock_price →
      (ladder stock_price).filter
        (fun s => decide (strike_price +
          premium_lost / stock_price * stock_price ≤ s)) = [] →
      ∃ m, adjust_new_strike stock_price strike_price premium_lost = some m ∧
        m ∈ ladder stock_price ∧ ∀ s ∈ ladder stock_price, s ≤ m) := by
  refine ⟨?_, ?_, ?_, ?_, ?_⟩
  · intro cfg position ds
    exact run_days_le_one cfg ds position
  · intro cfg position dte cop pl hadj hdec
    obtain ⟨hfalse, -⟩ :=
      check_early_exit_adjust_not_adjusted cfg position dte cop pl hdec
    rw [hadj] at hfalse
    exact absurd hfalse (by simp)
  · intro cfg position dte cop m b hdec
    simp only [check_early_exit] at hdec
    split_ifs at hdec <;> simp_all
  · intro m
    exact ⟨"STOP_LOSS_" ++ toString m ++ "X", rfl⟩
  · intro stock_price strike_price premium_lost hp hfil
    have hne := ladder_nonempty stock_price hp
    obtain ⟨m, hm⟩ := listMax_isSome (ladder stock_price) hne
    obtain ⟨hmem, hall⟩ := listMax_spec (ladder stock_price) m hm
    refine ⟨m, ?_, hmem, hall⟩
    unfold adjust_new_strike
    rw [if_pos hfil, hm]

/-- The ladder at spot 8: tier interval 2.5, strikes 7.5 and 10. -/
theorem ladder_eight : ladder 8 = [15/2, 10] := by
  rw [ladder, show get_strike_interval 8 = 5/2 by norm_num [get_strike_interval],
    generate_strikes_eight]

/-- C7 counterexample: with exactly one bar on or before the query date (the
current bar, high 10 / low 6 / close 8), `_calculate_pivot_points` computes
the levels from that current bar instead of reporting them unavailable, and
`_select_strike` under PIVOT_R1 then targets that bar's R1 = 10 (spot 8)
rather than the 2%-OTM fallback, selecting strike 10 where the fallback
would select 7.5. -/
theorem pivot_points_single_bar_counterexample :
    calculate_pivot_points [⟨10, 6, 8⟩] = some (pivots_from_bar ⟨10, 6, 8⟩) ∧
    pivots_from_bar ⟨10, 6, 8⟩ =
      ⟨8, 10, 12, 14, 6, 4, 2⟩ ∧
    select_strike "PIVOT_R1" 8 0 0 none (fun _ => 0)
      (calculate_pivot_points [⟨10, 6, 8⟩]) none = some 10 ∧
    select_strike "PIVOT_R1" 8 0 0 none (fun _ => 0) none none =
      some (15/2) := by
  have hpv : pivots_from_bar ⟨10, 6, 8⟩ = ⟨8, 10, 12, 14, 6, 4, 2⟩ := by
    rw [pivots_from_bar]
    norm_num
  have hcp : calculate_pivot_points [⟨10, 6, 8⟩] =
      some (pivots_from_bar ⟨10, 6, 8⟩) := rfl
  refine ⟨hcp, hpv, ?_, ?_⟩
  · rw [hcp, hpv]
    delta select_strike
    rw [if_neg (by decide), if_neg (by decide), if_neg (by decide),
      if_neg (by decide), if_neg (by decide), if_neg (by decide),
      if_neg (by decide), if_pos rfl]
    show argminFirst
      (fun x => abs (x - (if (10:ℚ) ≤ 8 then (8:ℚ) * (102/100) else 10)))
      (ladder 8) = some 10
    rw [ladder_eight, if_neg (by norm_num)]
    norm_num [argminFirst, argminGo]
  · delta select_strike
    rw [if_neg (by decide), if_neg (by decide), if_neg (by decide),
      if_neg (by decide), if_neg (by decide), if_neg (by decide),
      if_neg (by decide), if_pos rfl]
    show argminFirst (fun x => abs (x - (8:ℚ) * (102/100))) (ladder 8) =
      some (15/2)
    rw [ladder_eight]
    norm_num [argminFirst, argminGo]
    rw [abs_of_nonneg (by norm_num : (0:ℚ) ≤ 33/50),
      abs_of_nonneg (by norm_num : (0:ℚ) ≤ 46/25)]
    norm_num

/-- C7 amended: the pivot levels come from the previous completed bar
whenever at least two bars are available on or before the query date; with
exactly one available bar that bar itself (the current one) is used; with no
bars the computation reports no pivots; and the PIVOT_R1 / PIVOT_R2 strike
selection falls back to the 2% / 5% OTM target when pivots are unavailable
or the resistance level is at or below spot, and targets the resistance
level when it is above spot. -/
theorem pivot_points_previous_bar (hist : List Bar) (p : ℚ)
    (atr am : ℚ) (ivd : Option ℚ) (delta_of : ℚ → ℚ) (bu : Option ℚ)
    (pv : Pivots) :
    (∀ h2 : 2 ≤ hist.length,
      calculate_pivot_points hist =
        some (pivots_from_bar (hist.get ⟨hist.length - 2, by omega⟩))) ∧
    (∀ b : Bar, calculate_pivot_points [b] = some (pivots_from_bar b)) ∧
    calculate_pivot_points [] = none ∧
    (select_strike "PIVOT_R1" p atr am ivd delta_of none bu =
      argminFirst (fun x => abs (x - p * (102/100))) (ladder p)) ∧
    (pv.r1 ≤ p →
      select_strike "PIVOT_R1" p atr am ivd delta_of (some pv) bu =
        argminFirst (fun x => abs (x - p * (102/100))) (ladder p)) ∧
    (p < pv.r1 →
      select_strike "PIVOT_R1" p atr am ivd delta_of (some pv) bu =
        argminFirst (fun x => abs (x - pv.r1)) (ladder p)) ∧
    (select_strike "PIVOT_R2" p atr am ivd delta_of none bu =
      argminFirst (fun x => abs (x - p * (105/100))) (ladder p)) ∧
    (pv.r2 ≤ p →
      select_strike "PIVOT_R2" p atr am ivd delta_of (some pv) bu =
        argminFirst (fun x => abs (x - p * (105/100))) (ladder p)) ∧
    (p < pv.r2 →
      select_strike "PIVOT_R2" p atr am ivd delta_of (some pv) bu =
        argminFirst (fun x => abs (x - pv.r2)) (ladder p)) := by
  refine ⟨?_, ?_, rfl, ?_, ?_, ?_, ?_, ?_, ?_⟩
  · intro h2
    have hl : (hist.drop (hist.length - 2)).length = 2 := by
      rw [List.length_drop]; omega
    rcases hd : hist.drop (hist.length - 2) with _ | ⟨a, rest⟩
    · rw [hd] at hl; simp at hl
    · rcases rest with _ | ⟨c, rest2⟩
      · rw [hd] at hl; simp at hl
      · rcases rest2 with _ | ⟨e, rest3⟩
        · rw [calculate_pivot_points, hd]
          have h0 : (hist.drop (hist.length - 2))[0]? = some a := by
            rw [hd]; rfl
          rw [List.getElem?_drop] at h0
          rw [List.getElem?_eq_getElem
            (by omega : hist.length - 2 + 0 < hist.length)] at h0
          injection h0 with h0
          exact congrArg (fun b => some (pivots_from_bar b)) h0.symm
        · rw [hd] at hl; simp at hl
  · intro b; rfl
  · delta select_strike
    rw [if_neg (by decide), if_neg (by decide), if_neg (by decide),
      if_neg (by decide), if_neg (by decide), if_neg (by decide),
      if_neg (by decide), if_pos rfl]
  · intro hr
    delta select_strike
    rw [if_neg (by decide), if_neg (by decide), if_neg (by decide),
      if_neg (by decide), if_neg (by decide), if_neg (by decide),
      if_neg (by decide), if_pos rfl]
    show argminFirst
      (fun x => abs (x - (if pv.r1 ≤ p then p * (102/100) else pv.r1)))
      (ladder p) = _
    rw [if_pos hr]
  · intro hr
    delta select_strike
    rw [if_neg (by decide), if_neg (by decide), if_neg (by decide),
      if_neg (by decide), if_neg (by decide), if_neg (by decide),
      if_neg (by decide), if_pos rfl]
    show argminFirst
      (fun x => abs (x - (if pv.r1 ≤ p then p * (102/100) else pv.r1)))
      (ladder p) = _
    rw [if_neg (not_le.mpr hr)]
  · delta select_strike
    rw [if_neg (by decide), if_neg (by decide), if_neg (by decide),
      if_neg (by decide), if_neg (by decide), if_neg (by decide),
      if_neg (by decide), if_neg (by decide), if_pos rfl]
  · intro hr
    delta select_strike
    rw [if_neg (by decide), if_neg (by decide), if_neg (by decide),
      if_neg (by decide), if_neg (by decide), if_neg (by decide),
      if_neg (by decide), if_neg (by decide), if_pos rfl]
    show argminFirst
      (fun x => abs (x - (if pv.r2 ≤ p then p * (105/100) else pv.r2)))
      (ladder p) = _
    rw [if_pos hr]
  · intro hr
    delta select_strike
    rw [if_neg (by decide), if_neg (by decide), if_neg (by decide),
      if_neg (by decide), if_neg (by decide), if_neg (by decide),
      if_neg (by decide), if_neg (by decide), if_pos rfl]
    show argminFirst
      (fun x => abs (x - (if pv.r2 ≤ p then p * (105/100) else pv.r2)))
      (ladder p) = _
    rw [if_neg (not_le.mpr hr)]

end CoveredCalls
